import Mathlib

/-!
Verification development for the serverless request/response bridge and the
session middleware of this repository.

The TypeScript sources are shallowly embedded:
* JavaScript runtime values are modelled by the inductive `JSVal`
  (`undefined`, `null`, booleans, numbers, strings, Buffers, arrays, objects).
  Numbers are modelled as `Int`; a Node `Buffer` is modelled by its UTF-8
  decoded content, since the bridge only ever decodes buffers to UTF-8 text.
* `JSON.parse` (a JS builtin, external to the repository) is passed in as a
  parameter `parse : String → Option JSVal`, `none` standing for a parse
  throw; `JSON.stringify` is modelled by `stringify` below.
* The at-most-once settlement of a JS `Promise`'s `resolve` is modelled by
  `promiseResolve` over a one-shot `Option Outcome` cell.
-/

/-- A JavaScript runtime value, as far as the bridge observes it. -/
inductive JSVal where
  | undefined : JSVal
  | null : JSVal
  | bool : Bool → JSVal
  | num : Int → JSVal
  | str : String → JSVal
  | buf : String → JSVal
  | arr : List JSVal → JSVal
  | obj : List (String × JSVal) → JSVal

/-- `typeof v` in JavaScript: note `typeof null = "object"`, Buffers and
arrays are objects. -/
def jsTypeof : JSVal → String
  | .undefined => "undefined"
  | .null => "object"
  | .bool _ => "boolean"
  | .num _ => "number"
  | .str _ => "string"
  | .buf _ => "object"
  | .arr _ => "object"
  | .obj _ => "object"

/-- JavaScript truthiness: `undefined`, `null`, `false`, `0` and `""` are
falsy; every object (including Buffers, arrays, empty objects) is truthy. -/
def jsTruthy : JSVal → Bool
  | .undefined => false
  | .null => false
  | .bool b => b
  | .num n => n != 0
  | .str s => s != ""
  | .buf _ => true
  | .arr _ => true
  | .obj _ => true

/-- The values whose JS `typeof` is `"object"` (`null`, Buffers, arrays,
plain objects). -/
def isObjectTypeof : JSVal → Bool
  | .null => true
  | .buf _ => true
  | .arr _ => true
  | .obj _ => true
  | _ => false

/-- The condition `typeof v === "object" && v !== null` used by the shim to
decide whether to merge the caller identity into the parsed body. -/
def isMergeTarget : JSVal → Bool
  | .buf _ => true
  | .arr _ => true
  | .obj _ => true
  | _ => false

/-- Is the value a JS string? -/
def JSVal.isString : JSVal → Bool
  | .str _ => true
  | _ => false

/-- Escape one character for a JSON string literal. -/
def jsonEscapeChar (c : Char) : String :=
  if c = '"' then "\\\""
  else if c = '\\' then "\\\\"
  else if c = '\n' then "\\n"
  else if c = '\r' then "\\r"
  else if c = '\t' then "\\t"
  else String.singleton c

/-- A JSON string literal with its quotes, as `JSON.stringify` prints it. -/
def jsonQuote (s : String) : String :=
  "\"" ++ String.join (s.data.map jsonEscapeChar) ++ "\""

mutual

/-- `JSON.stringify` (JS builtin, modelled): `undefined` never reaches the
top level in the shim, object members whose value is `undefined` are
dropped, and `undefined` array elements print as `null`. -/
def stringify : JSVal → String
  | .undefined => "undefined"
  | .null => "null"
  | .bool true => "true"
  | .bool false => "false"
  | .num n => toString n
  | .str s => jsonQuote s
  | .buf _ => "\x7b\x7d"
  | .arr xs => "[" ++ String.intercalate "," (stringifyList xs) ++ "]"
  | .obj fs => "\x7b" ++ String.intercalate "," (stringifyFields fs) ++ "\x7d"

/-- Array elements of `JSON.stringify`; `undefined` prints as `null`. -/
def stringifyList : List JSVal → List String
  | [] => []
  | .undefined :: xs => "null" :: stringifyList xs
  | x :: xs => stringify x :: stringifyList xs

/-- Object members of `JSON.stringify`; `undefined`-valued members are
omitted. -/
def stringifyFields : List (String × JSVal) → List String
  | [] => []
  | (_, .undefined) :: fs => stringifyFields fs
  | (k, v) :: fs => (jsonQuote k ++ ":" ++ stringify v) :: stringifyFields fs

end

mutual

/-- JavaScript's implicit `toString()` coercion (`String(v)` semantics for
the values the shim can meet): arrays join their elements with commas,
`null`/`undefined` elements print as empty, objects print as
`[object Object]`, a Buffer yields its UTF-8 decoded content. -/
def jsToString : JSVal → String
  | .undefined => "undefined"
  | .null => "null"
  | .bool true => "true"
  | .bool false => "false"
  | .num n => toString n
  | .str s => s
  | .buf s => s
  | .arr xs => String.intercalate "," (jsToStringList xs)
  | .obj _ => "[object Object]"

/-- Elements of JS array `toString`: `null` and `undefined` become empty. -/
def jsToStringList : List JSVal → List String
  | [] => []
  | .undefined :: xs => "" :: jsToStringList xs
  | .null :: xs => "" :: jsToStringList xs
  | x :: xs => jsToString x :: jsToStringList xs

end

/-- The three-field caller identity record returned by `getWXContext`
(external SDK); each field may be absent. -/
structure WXContext where
  OPENID : Option String
  APPID : Option String
  UNIONID : Option String

/-- The value the orchestration resolves: in the source it is the object
literal `\x7bstatusCode: res.statusCode, body: ...\x7d`; the body slot is a JS
value (the code does not constrain it to a string). -/
structure Outcome where
  statusCode : Int
  body : JSVal

/-- State owned by the response capture shim for one invocation: the
accumulated decoded body buffer `resBody` and the one-shot deferred
outcome cell. -/
structure ShimState where
  resBody : String
  outcome : Option Outcome

/-- At-most-once settlement of a JS `Promise`: a second `resolve` is a
no-op. -/
def promiseResolve (cur : Option Outcome) (o : Outcome) : Option Outcome :=
  match cur with
  | some x => some x
  | none => some o

/-- Decoding applied to chunks before accumulation (`res.write` wrapper,
src/unnamed/part_002 lines 299-321): a Buffer is decoded
(`Buffer.from(chunk, 'base64').toString('utf8')`; when the first argument is
already a Buffer the encoding argument is ignored by Node, so this is plain
UTF-8 decoding, i.e. the buffer's content in this model), anything else is
string-coerced. -/
def decodeChunk : JSVal → String
  | .buf s => s
  | v => jsToString v

/-- The wrapped `res.write`: appends the decoded chunk to the accumulator
and forwards to the underlying write (the forwarding has no observable
effect in this model). -/
def writeStep (st : ShimState) (chunk : JSVal) : ShimState :=
  { st with resBody := st.resBody ++ decodeChunk chunk }

/-- The call shapes of the wrapped `res.end` (src/unnamed/part_002 lines
323-347): `end()`, `end(cb)`, `end(chunk[, cb])`, `end(chunk, encoding, cb)`.
Callbacks are opaque and carry no data. -/
inductive EndArgs where
  | noArgs : EndArgs
  | cbOnly : EndArgs
  | chunkCb : JSVal → EndArgs
  | chunkEncCb : JSVal → Option String → EndArgs

/-- The overload normalization at the top of the wrapped `end`: recover
`(data, encoding)` from the three positional-argument shapes. -/
def normalizeEnd : EndArgs → JSVal × Option String
  | .noArgs => (.undefined, none)
  | .cbOnly => (.undefined, none)
  | .chunkCb c => (c, none)
  | .chunkEncCb c e => (c, e)

/-- Spread of a JS value into object fields (`\x7b...v\x7d`): objects give their
fields, arrays give index-keyed fields; only objects and arrays reach the
spread in the shim. -/
def spreadPairs : JSVal → List (String × JSVal)
  | .obj fs => fs
  | .arr xs => spreadEnum 0 xs
  | _ => []
where
  /-- Index-keyed fields of an array spread. -/
  spreadEnum : Nat → List JSVal → List (String × JSVal)
    | _, [] => []
    | i, x :: xs => (toString i, x) :: spreadEnum (i + 1) xs

/-- Set a key in an object-literal field list: an existing key keeps its
position and takes the new value (JS object spread-and-override), a new key
is appended. -/
def setKey (fs : List (String × JSVal)) (k : String) (v : JSVal) :
    List (String × JSVal) :=
  if fs.any (fun p => p.1 == k) then
    fs.map (fun p => if p.1 == k then (k, v) else p)
  else
    fs ++ [(k, v)]

/-- `wxContext?.FIELD` as a JS value: `undefined` when the context or the
field is absent. -/
def wxField (v : Option String) : JSVal :=
  match v with
  | some s => .str s
  | none => .undefined

/-- The identity merge of the shim (lines 365-374):
`\x7b...responseBody, wxContext: \x7bopenid, appid, unionid\x7d\x7d`. -/
def mergeWx (j : JSVal) (wx : Option WXContext) : JSVal :=
  .obj (setKey (spreadPairs j) "wxContext" (.obj
    [("openid", wxField (wx.bind WXContext.OPENID)),
     ("appid", wxField (wx.bind WXContext.APPID)),
     ("unionid", wxField (wx.bind WXContext.UNIONID))]))

/-- Lines 356-381 of the wrapped `end`: parse the accumulated buffer, merge
the identity context when the parsed value is a non-null object, and pick
the body handed to `resolve` (`typeof responseBody === 'object' ?
JSON.stringify(responseBody) : responseBody`). -/
def computeBody (parse : String → Option JSVal) (wx : Option WXContext)
    (rb : String) : JSVal :=
  match parse rb with
  | none => .str rb
  | some j =>
    let j2 := if isMergeTarget j then mergeWx j wx else j
    if isObjectTypeof j2 then .str (stringify j2) else j2

/-- The wrapped `res.end` (src/unnamed/part_002 lines 323-385): normalize
the overloads, pipe a truthy final chunk through the wrapped `write`, parse
and merge the accumulated buffer, and resolve the outcome cell (first write
wins); `status` is `res.statusCode` at the moment of the call. -/
def endStep (parse : String → Option JSVal) (wx : Option WXContext)
    (status : Int) (st : ShimState) (args : EndArgs) : ShimState :=
  let data := (normalizeEnd args).1
  let st1 := if jsTruthy data then writeStep st data else st
  let o : Outcome := ⟨status, computeBody parse wx st1.resBody⟩
  { st1 with outcome := promiseResolve st1.outcome o }

/-!
## Event normalization (`getExpressParams`, src/unnamed/part_002 lines 392-430)

The invocation event is an arbitrary JS object, modelled as its own-field
list; reading an absent field yields `undefined`.
-/

/-- Property access `ev.k` on the event object: `undefined` when absent. -/
def evGet (ev : List (String × JSVal)) (k : String) : JSVal :=
  match ev.find? (fun p => p.1 == k) with
  | some p => p.2
  | none => .undefined

/-- ASCII upper-casing of one character, as JS `toUpperCase` acts on the
method strings in play. -/
def upChar (c : Char) : Char :=
  if h : 97 ≤ c.toNat ∧ c.toNat ≤ 122 then
    ⟨UInt32.ofNat (c.toNat - 32), by
      have hv : (UInt32.ofNat (c.toNat - 32)).toNat = c.toNat - 32 :=
        UInt32.toNat_ofNat_of_lt (show c.toNat - 32 < 4294967296 by omega)
      refine Or.inl ?_
      show (UInt32.ofNat (c.toNat - 32)).toNat < 0xd800
      omega⟩
  else c

/-- JS `String.prototype.toUpperCase` (modelled for ASCII). -/
def jsToUpper (s : String) : String :=
  ⟨s.data.map upChar⟩

/-- Is the character a lowercase ASCII letter? -/
def isLowerAscii (c : Char) : Bool :=
  decide (97 ≤ c.toNat ∧ c.toNat ≤ 122)

/-- The normalized parameter record produced once per invocation.  The
source keeps `headers`, `queryStringParameters` and `body` as the original
JS values when they pass the shape checks, so those slots stay `JSVal`. -/
structure ExpressParams where
  path : String
  httpMethod : String
  headers : JSVal
  queryStringParameters : JSVal
  body : JSVal
  isBase64Encoded : Bool

/-- `getExpressParams` (lines 392-430): each field of the event is checked
and defaulted exactly as in the source — `path` must be a truthy string,
else `"/"`; `httpMethod` must be a truthy string, else `"GET"`, and is then
upper-cased; `headers` and `queryStringParameters` must be truthy objects,
else `\x7b\x7d`; `body` falsy or neither string nor object becomes
`JSON.stringify(body)` when its typeof is `"object"` (only `null` can reach
that branch) and `""` otherwise; `isBase64Encoded` is boolean-coerced. -/
def getExpressParams (ev : List (String × JSVal)) : ExpressParams :=
  let path :=
    match evGet ev "path" with
    | .str s => if s = "" then "/" else s
    | _ => "/"
  let rawMethod :=
    match evGet ev "httpMethod" with
    | .str s => if s = "" then "GET" else s
    | _ => "GET"
  let headers :=
    let h := evGet ev "headers"
    if jsTruthy h && isObjectTypeof h then h else .obj []
  let query :=
    let q := evGet ev "queryStringParameters"
    if jsTruthy q && isObjectTypeof q then q else .obj []
  let body :=
    let b := evGet ev "body"
    if !jsTruthy b || (!(jsTypeof b == "string") && !(jsTypeof b == "object"))
    then (if jsTypeof b == "object" then JSVal.str (stringify b) else JSVal.str "")
    else b
  { path := path
    httpMethod := jsToUpper rawMethod
    headers := headers
    queryStringParameters := query
    body := body
    isBase64Encoded := jsTruthy (evGet ev "isBase64Encoded") }

/-!
## The synthetic response's `send` routine (src/unnamed/part_002 lines 131-231)

Headers live in a case-insensitive name→value map (Node's
`getHeader`/`setHeader`/`removeHeader`); the Express helpers `res.type`,
`res.json`, the `content-type` parser behind `setCharset` and the
application's `etag fn` setting are external collaborators and are
modelled at the granularity `send` observes them.
-/

/-- ASCII lower-casing of one character (for case-insensitive header names
and the forwarded-protocol comparison). -/
def lowChar (c : Char) : Char :=
  if h : 65 ≤ c.toNat ∧ c.toNat ≤ 90 then
    ⟨UInt32.ofNat (c.toNat + 32), by
      have hv : (UInt32.ofNat (c.toNat + 32)).toNat = c.toNat + 32 :=
        UInt32.toNat_ofNat_of_lt (show c.toNat + 32 < 4294967296 by omega)
      refine Or.inl ?_
      show (UInt32.ofNat (c.toNat + 32)).toNat < 0xd800
      omega⟩
  else c

/-- JS `String.prototype.toLowerCase` (modelled for ASCII). -/
def jsToLower (s : String) : String :=
  ⟨s.data.map lowChar⟩

/-- Leading-whitespace removal on a character list. -/
def dropLeadWs : List Char → List Char
  | [] => []
  | c :: cs => if c = ' ' ∨ c = '\t' ∨ c = '\n' ∨ c = '\r' then dropLeadWs cs else c :: cs

/-- JS `String.prototype.trim` (modelled for the ASCII whitespace in play):
strip leading and trailing whitespace. -/
def jsTrim (s : String) : String :=
  ⟨((dropLeadWs s.data.reverse).reverse |> dropLeadWs)⟩

/-- The synthetic response's mutable header state and status code
(`ServerResponse` defaults its status code to 200; the assignment of a
custom default is commented out in the source). -/
structure ResState where
  statusCode : Int
  headers : List (String × String)

/-- Case-insensitive header lookup (`this.get(name)` / Node `getHeader`). -/
def hGet (hs : List (String × String)) (name : String) : Option String :=
  (hs.find? (fun p => jsToLower p.1 == jsToLower name)).map (fun p => p.2)

/-- Case-insensitive header set (`this.set(name, v)` / Node `setHeader`):
replaces an existing entry, else appends. -/
def hSet (st : ResState) (name v : String) : ResState :=
  if st.headers.any (fun p => jsToLower p.1 == jsToLower name) then
    { st with headers :=
        st.headers.map (fun p =>
          if jsToLower p.1 == jsToLower name then (p.1, v) else p) }
  else
    { st with headers := st.headers ++ [(name, v)] }

/-- Case-insensitive header removal (`this.removeHeader(name)`). -/
def hRemove (st : ResState) (name : String) : ResState :=
  { st with headers :=
      st.headers.filter (fun p => !(jsToLower p.1 == jsToLower name)) }

/-- The mime lookup behind Express `res.type` for the two shorthands `send`
uses (external `mime-types` registry, modelled for the entries in play):
`html` ↦ `text/html`, `bin` ↦ `application/octet-stream`. -/
def mimeLookup (t : String) : String :=
  if t = "html" then "text/html"
  else if t = "bin" then "application/octet-stream"
  else t

/-- Express `res.type(t)` (external helper): sets `Content-Type` to the
mime-resolved type. -/
def resTypeSet (st : ResState) (t : String) : ResState :=
  hSet st "Content-Type" (mimeLookup t)

/-- The characters of a media type before its first `;` parameter. -/
def mediaChars : List Char → List Char
  | [] => []
  | c :: cs => if c = ';' then [] else c :: mediaChars cs

/-- `setCharset` (src/unnamed/part_002 lines 106-122, on top of the external
`content-type` parser): an empty type or charset is returned unchanged,
otherwise the charset parameter is set on the parsed media type and the
header value re-formatted. Modelled for the parameter-free media types the
bridge produces: the media part is the text before the first `;`,
trimmed. -/
def setCharset (type charset : String) : String :=
  if type = "" ∨ charset = "" then type
  else jsTrim ⟨mediaChars type.data⟩ ++ "; charset=" ++ charset

/-- The chunk variable of `send` after the type-dispatch switch: it is
`undefined`, a string, or a Buffer. -/
inductive SendChunk where
  | undef : SendChunk
  | str : String → SendChunk
  | buf : String → SendChunk

/-- The application's `etag fn` setting: `none` models a non-function
setting (no ETag generation); the function receives the chunk and encoding
and returns the header value, `""` standing for a falsy result. -/
def EtagFn := SendChunk → Option String → String

/-- Result of `send`: either the immediate delegation `return
this.json(chunk)` (the JSON branch of the type switch, handled by the
external framework), or termination via `this.end`, `none` written for the
HEAD short-circuit and `some (chunk, encoding)` otherwise. -/
inductive SendResult where
  | jsonDelegate : JSVal → SendResult
  | done : ResState → Option (SendChunk × Option String) → SendResult

/-- Step (a) of `send` (lines 140-160), the `typeof` switch: a string body
defaults `Content-Type` to `html` unless set; `null` is coerced to `""`; a
Buffer defaults `Content-Type` to `bin` unless set; booleans, numbers and
any other object fall to `return this.json(chunk)` (the `inl` side). -/
def sendTypeDispatch (st : ResState) (body : JSVal) :
    Sum JSVal (ResState × SendChunk) :=
  match body with
  | .str s =>
    .inr (if (hGet st.headers "Content-Type").isNone
          then resTypeSet st "html" else st, .str s)
  | .null => .inr (st, .str "")
  | .buf b =>
    .inr (if (hGet st.headers "Content-Type").isNone
          then resTypeSet st "bin" else st, .buf b)
  | .bool b => .inl (.bool b)
  | .num n => .inl (.num n)
  | .arr xs => .inl (.arr xs)
  | .obj fs => .inl (.obj fs)
  | .undefined => .inr (st, .undef)

/-- Step (b) of `send` (lines 162-171): a string chunk forces `utf8` write
encoding and rewrites an existing `Content-Type` to carry
`charset=utf-8`. -/
def sendCharset (p : ResState × SendChunk) :
    ResState × SendChunk × Option String :=
  match p.2 with
  | .str _ =>
    let st := match hGet p.1.headers "Content-Type" with
      | some t => hSet p.1 "Content-Type" (setCharset t "utf-8")
      | none => p.1
    (st, p.2, some "utf8")
  | c => (p.1, c, none)

/-- Steps (c)+(d) of `send` (lines 173-202): decide whether an ETag should
be generated (no `ETag` header yet and `etag fn` is a function), populate
`Content-Length` (Buffer length; cheap length for a small string when no
ETag is needed; otherwise convert the string to a Buffer, dropping the
encoding, and take its byte length), then populate `ETag` from the etag
function when one is to be generated and a length was computed.  A JS
string's `.length` counts UTF-16 units, modelled by `String.length`;
`Buffer.byteLength(s, 'utf8')` is `String.utf8ByteSize`. -/
def sendLenEtag (etagFn : Option EtagFn)
    (x : ResState × SendChunk × Option String) :
    ResState × SendChunk × Option String :=
  let st := x.1
  let chunk := x.2.1
  let enc := x.2.2
  let generateETag := (hGet st.headers "ETag").isNone && etagFn.isSome
  let lce : Option Nat × SendChunk × Option String :=
    match chunk with
    | .undef => (none, chunk, enc)
    | .buf b => (some b.utf8ByteSize, chunk, enc)
    | .str s =>
      if !generateETag && s.length < 1000 then (some s.utf8ByteSize, .str s, enc)
      else (some s.utf8ByteSize, .buf s, none)
  let st := match lce.1 with
    | some l => hSet st "Content-Length" (toString l)
    | none => st
  let st :=
    if generateETag && lce.1.isSome then
      match etagFn with
      | some f =>
        let e := f lce.2.1 lce.2.2
        if e ≠ "" then hSet st "ETag" e else st
      | none => st
    else st
  (st, lce.2.1, lce.2.2)

/-- Step (e) of `send` (line 205): a fresh conditional request forces
status 304. -/
def sendFresh (fresh : Bool) (st : ResState) : ResState :=
  if fresh then { st with statusCode := 304 } else st

/-- Step (f) of `send` (lines 208-213): for status 204 or 304 strip
`Content-Type`, `Content-Length` and `Transfer-Encoding` and empty the
body. -/
def send204304 (p : ResState × SendChunk) : ResState × SendChunk :=
  if p.1.statusCode = 204 ∨ p.1.statusCode = 304 then
    (hRemove (hRemove (hRemove p.1 "Content-Type") "Content-Length")
      "Transfer-Encoding", .str "")
  else p

/-- Step (g) of `send` (lines 216-220): for status 205 zero
`Content-Length`, strip `Transfer-Encoding` and empty the body. -/
def send205 (p : ResState × SendChunk) : ResState × SendChunk :=
  if p.1.statusCode = 205 then
    (hRemove (hSet p.1 "Content-Length" "0") "Transfer-Encoding", .str "")
  else p

/-- Step (h) of `send` (lines 222-228): a HEAD request terminates with
`this.end()` (no body written); any other request terminates with
`this.end(chunk, encoding)`. -/
def sendFinish (method : String) (st : ResState) (chunk : SendChunk)
    (enc : Option String) : SendResult :=
  if method = "HEAD" then .done st none else .done st (some (chunk, enc))

/-- `res.send(body)` as installed by `initExpressResponse` (lines 131-231):
the pipeline of the steps above, in source order. -/
def send (etagFn : Option EtagFn) (method : String) (fresh : Bool)
    (st : ResState) (body : JSVal) : SendResult :=
  match sendTypeDispatch st body with
  | .inl v => .jsonDelegate v
  | .inr p =>
    let x := sendCharset p
    let y := sendLenEtag etagFn x
    let st3 := sendFresh fresh y.1
    let q := send204304 (st3, y.2.1)
    let r := send205 q
    sendFinish method r.1 r.2 y.2.2

/-!
## Session subsystem (src/packages/server/src/middlewares/session.ts)

Time is explicit: every operation that reads `Date.now()` takes `now : Int`
(milliseconds).  The session's `req` back-reference and the store's
event-emitter base are not needed by the claims about these operations and
are not modelled; a cookie's `_expires` is the millisecond timestamp of the
stored `Date`.
-/

/-- The `Cookie` value object: `_maxAge` retains the originally configured
duration, `_expires` is the live absolute expiry instant. -/
structure Cookie where
  path : String := "/"
  httpOnly : Bool := true
  _maxAge : Option Int := none
  _expires : Option Int := none
  secure : Option Bool := none
  partitioned : Option Bool := none
  priority : Option String := none
  domain : Option String := none
  sameSite : Option String := none

/-- The `maxAge` getter (lines 82-86): `expires - Date.now()` when an
expiry `Date` is stored, else the stored (absent) expires value. -/
def cookieMaxAge (c : Cookie) (now : Int) : Option Int :=
  c._expires.map (fun e => e - now)

/-- The `expires` setter (lines 66-71): store the date, and when the live
`maxAge` recomputed from it is truthy, retain it as the original maxAge. -/
def cookieSetExpires (c : Cookie) (d : Int) (now : Int) : Cookie :=
  let c1 := { c with _expires := some d }
  match cookieMaxAge c1 now with
  | some m => if m ≠ 0 then { c1 with _maxAge := some m } else c1
  | none => c1

/-- The `maxAge` setter (lines 77-80): a falsy argument is ignored,
otherwise the expiry is renewed to `now + ms`. -/
def cookieSetMaxAge (c : Cookie) (ms : Option Int) (now : Int) : Cookie :=
  match ms with
  | none => c
  | some m => if m = 0 then c else cookieSetExpires c (now + m) now

/-- `getOriMaxAge` (lines 102-104). -/
def cookieGetOriMaxAge (c : Cookie) : Option Int :=
  c._maxAge

/-- A stored session: the generated identifier and the optional cookie.
(The owning-request back-reference and dynamically merged data fields play
no part in the operations verified here.) -/
structure Session where
  id : String
  cookie : Option Cookie := none

/-- `Session.touch` (lines 345-350): when a cookie is present, assign
`cookie.maxAge = cookie.getOriMaxAge()` through the maxAge setter. -/
def sessionTouch (s : Session) (now : Int) : Session :=
  match s.cookie with
  | some c => { s with cookie := some (cookieSetMaxAge c (cookieGetOriMaxAge c) now) }
  | none => s

/-- The in-memory store's session map (`Map<string, Session>`), as an
association list with unique keys maintained by `Map` semantics. -/
structure MemoryStore where
  sessions : List (String × Session)

/-- `Map.get` on the session map. -/
def sLookup (l : List (String × Session)) (id : String) : Option Session :=
  (l.find? (fun p => p.1 == id)).map (fun p => p.2)

/-- `Map.delete` on the session map. -/
def sErase (l : List (String × Session)) (id : String) :
    List (String × Session) :=
  l.filter (fun p => !(p.1 == id))

/-- `getSession` (lines 145-162): absent id gives nothing; a present
session whose cookie carries an `expires` at or before now is deleted and
treated as absent; otherwise the stored session is returned unchanged.
The returned store reflects the possible deletion. -/
def getSession (m : MemoryStore) (id : String) (now : Int) :
    Option Session × MemoryStore :=
  match sLookup m.sessions id with
  | none => (none, m)
  | some s =>
    match s.cookie with
    | some c =>
      match c._expires with
      | some e =>
        if e ≤ now then (none, ⟨sErase m.sessions id⟩) else (some s, m)
      | none => (some s, m)
    | none => (some s, m)

/-- `MemoryStore.get` (lines 184-186): defers `getSession` to a later event
loop turn via `setImmediate`; the callback's value and the store mutation
are those of `getSession`. -/
def storeGet (m : MemoryStore) (id : String) (now : Int) :
    Option Session × MemoryStore :=
  getSession m id now

/-- The middleware function returned by `session()` (lines 457-468),
abstracted over its observable inputs: whether `req.session` is set,
whether the store is ready, and whether a `next` continuation was supplied.
The result is whether `next` was invoked: a request with a session invokes
it, a not-ready store invokes it after a debug log, and the remaining case
(no session, store ready) falls off the end of the function without
invoking it. -/
def sessionMiddleware (hasSession storeReady nextProvided : Bool) : Bool :=
  if hasSession then nextProvided
  else if !storeReady then nextProvided
  else false

/-- The request fields `isSecure` consults: `req.secure` (own transport)
and the `req.header` record (values modelled as strings). -/
structure SecReq where
  secure : Option Bool := none
  header : Option (List (String × String)) := none

/-- Exact-key record lookup `h["..."]`. -/
def recGet (h : List (String × String)) (k : String) : Option String :=
  (h.find? (fun p => p.1 == k)).map (fun p => p.2)

/-- The characters before the first occurrence of `stop` (the whole list
when `stop` does not occur). -/
def takeUntilChar (stop : Char) : List Char → List Char
  | [] => []
  | c :: cs => if c = stop then [] else c :: takeUntilChar stop cs

/-- The first comma-separated entry of a header value
(`indexOf(',')`/`substr(0, index)`, the whole string when no comma). -/
def firstCommaEntry (s : String) : String :=
  ⟨takeUntilChar ',' s.data⟩

/-- `isSecure(req, trustProxy)` (lines 398-415): explicitly-false trust
proxy is never secure; an unset trust proxy defers to `req.secure === true`;
a truthy trust proxy lower-cases and trims the first comma-separated entry
of the `x-forworded-proto` header (header key as spelled in the source,
absent or falsy giving `""`) and compares it to `"https"`. -/
def isSecure (req : SecReq) (trustProxy : Option Bool) : Bool :=
  match trustProxy with
  | some false => false
  | none => decide (req.secure = some true)
  | some true =>
    let header :=
      match req.header with
      | none => ""
      | some h =>
        match recGet h "x-forworded-proto" with
        | none => ""
        | some v => v
    let proto := jsTrim (jsToLower (firstCommaEntry header))
    decide (proto = "https")

/-!
## Theorems
-/

/-- Helper: `writeStep` never touches the outcome cell. -/
theorem writeStep_outcome (st : ShimState) (c : JSVal) :
    (writeStep st c).outcome = st.outcome := rfl

/-- Helper: on an unresolved cell, the wrapped `end` resolves exactly the
pair of the current status code and the computed body of the accumulated
buffer. -/
theorem endStep_resolves (parse : String → Option JSVal) (wx : Option WXContext)
    (status : Int) (st : ShimState) (args : EndArgs) (h : st.outcome = none) :
    (endStep parse wx status st args).outcome =
      some ⟨status, computeBody parse wx (endStep parse wx status st args).resBody⟩ := by
  unfold endStep
  cases hj : jsTruthy (normalizeEnd args).1 <;>
    simp [hj, writeStep, promiseResolve, h]

/-- C1: on completion via the intercepted `end`, the accumulated buffer is
JSON-parsed; a successful parse yielding a non-null object gets a
`wxContext` field (openid/appid/unionid from the caller-identity context)
merged in, and the merged object re-serialized is the Outcome body; a parse
failure leaves the raw accumulated string as the body, with no merge. -/
theorem end_merges_wxContext_into_json_body
    (parse : String → Option JSVal) (wx : Option WXContext)
    (status : Int) (rb : String) :
    (∀ j, parse rb = some j → isMergeTarget j = true →
      (endStep parse wx status ⟨rb, none⟩ .noArgs).outcome =
        some ⟨status, .str (stringify (mergeWx j wx))⟩) ∧
    (parse rb = none →
      (endStep parse wx status ⟨rb, none⟩ .noArgs).outcome =
        some ⟨status, .str rb⟩) := by
  constructor
  · intro j hj hm
    have h := endStep_resolves parse wx status ⟨rb, none⟩ .noArgs rfl
    have hrb : (endStep parse wx status ⟨rb, none⟩ .noArgs).resBody = rb := by
      simp [endStep, normalizeEnd, jsTruthy]
    rw [hrb] at h
    rw [h]
    simp [computeBody, hj, hm, mergeWx, isObjectTypeof]
  · intro hn
    have h := endStep_resolves parse wx status ⟨rb, none⟩ .noArgs rfl
    have hrb : (endStep parse wx status ⟨rb, none⟩ .noArgs).resBody = rb := by
      simp [endStep, normalizeEnd, jsTruthy]
    rw [hrb] at h
    rw [h]
    simp [computeBody, hn]

/-- C1 witness: a handler body `\x7b"a":1\x7d` with an identity context whose
open id is `"OID"` resolves to the merged, re-serialized object; a
non-JSON body `"oops"` resolves to the raw string. -/
theorem end_merges_wxContext_into_json_body_witness :
    (endStep
      (fun s => if s = "\x7b\"a\":1\x7d" then some (JSVal.obj [("a", JSVal.num 1)]) else none)
      (some ⟨some "OID", none, none⟩) 200 ⟨"\x7b\"a\":1\x7d", none⟩ .noArgs).outcome =
      some ⟨200, .str "\x7b\"a\":1,\"wxContext\":\x7b\"openid\":\"OID\"\x7d\x7d"⟩ ∧
    (endStep
      (fun s => if s = "\x7b\"a\":1\x7d" then some (JSVal.obj [("a", JSVal.num 1)]) else none)
      (some ⟨some "OID", none, none⟩) 404 ⟨"oops", none⟩ .noArgs).outcome =
      some ⟨404, .str "oops"⟩ := by
  constructor
  · exact (end_merges_wxContext_into_json_body _ _ 200 _).1
      (JSVal.obj [("a", JSVal.num 1)]) rfl rfl
  · exact (end_merges_wxContext_into_json_body _ _ 404 _).2 rfl

/-- C3: the Outcome cell is settled at most once — once resolved, a second
terminal `end` call leaves the resolved `\x7bstatusCode, body\x7d` untouched
whatever its arguments: first write wins. -/
theorem outcome_resolved_at_most_once
    (parse : String → Option JSVal) (wx : Option WXContext)
    (status : Int) (st : ShimState) (args : EndArgs) (o : Outcome)
    (h : st.outcome = some o) :
    (endStep parse wx status st args).outcome = some o := by
  unfold endStep
  cases hj : jsTruthy (normalizeEnd args).1 <;>
    simp [hj, writeStep, promiseResolve, h]

/-- C3 witness: after a first `end` resolved `\x7b200, "done"\x7d`, a second
`end` carrying a different status and a further chunk leaves the outcome
unchanged. -/
theorem outcome_resolved_at_most_once_witness :
    (endStep (fun _ => none) none 500
      ⟨"done", some ⟨200, .str "done"⟩⟩ (.chunkCb (.str "late"))).outcome =
      some ⟨200, .str "done"⟩ :=
  outcome_resolved_at_most_once (fun _ => none) none 500
    ⟨"done", some ⟨200, .str "done"⟩⟩ (.chunkCb (.str "late")) ⟨200, .str "done"⟩ rfl

/-- C7 counterexample: a handler that sends the bare number 5 produces the
accumulated buffer `"5"`, which JSON-parses to the number 5; the resolved
Outcome body is then the number 5, not a string, refuting the claim that
the resolved body is always a string. -/
theorem outcome_body_number_counterexample :
    (endStep (fun s => if s = "5" then some (JSVal.num 5) else none) none 200
      ⟨"5", none⟩ .noArgs).outcome = some ⟨200, JSVal.num 5⟩ ∧
    (JSVal.num 5).isString = false :=
  ⟨rfl, rfl⟩

/-- C7 (amended): every resolution carries exactly the pair of the current
(integer) status code and a body; the body is a string in every case except
when the accumulated buffer parses to a bare JSON number or boolean, which
is resolved as that primitive value un-stringified. (`JSON.parse` never
returns `undefined`, hypothesis `hwf`.) -/
theorem outcome_statusCode_and_body_shape
    (parse : String → Option JSVal) (wx : Option WXContext)
    (status : Int) (rb : String) (args : EndArgs)
    (hwf : parse (endStep parse wx status ⟨rb, none⟩ args).resBody ≠
      some JSVal.undefined) :
    ∃ b, (endStep parse wx status ⟨rb, none⟩ args).outcome = some ⟨status, b⟩ ∧
      (b.isString = true ∨
       (∃ n, parse (endStep parse wx status ⟨rb, none⟩ args).resBody =
          some (.num n) ∧ b = .num n) ∨
       (∃ bo, parse (endStep parse wx status ⟨rb, none⟩ args).resBody =
          some (.bool bo) ∧ b = .bool bo)) := by
  have h := endStep_resolves parse wx status ⟨rb, none⟩ args rfl
  refine ⟨computeBody parse wx (endStep parse wx status ⟨rb, none⟩ args).resBody,
    h, ?_⟩
  unfold computeBody
  cases hp : parse (endStep parse wx status ⟨rb, none⟩ args).resBody with
  | none => simp [JSVal.isString]
  | some j =>
    cases j <;>
      simp_all [isMergeTarget, isObjectTypeof, mergeWx, JSVal.isString]

/-- C7 amended witness: a buffer parsing to the number 5 resolves that
number; a buffer that fails to parse resolves a string body. -/
theorem outcome_statusCode_and_body_shape_witness :
    (∃ b, (endStep (fun s => if s = "5" then some (JSVal.num 5) else none) none 200
      ⟨"5", none⟩ .noArgs).outcome = some ⟨200, b⟩ ∧
      (b.isString = true ∨
       (∃ n, (fun s => if s = "5" then some (JSVal.num 5) else none)
          ((endStep (fun s => if s = "5" then some (JSVal.num 5) else none) none 200
            ⟨"5", none⟩ .noArgs).resBody) = some (.num n) ∧ b = .num n) ∨
       (∃ bo, (fun s => if s = "5" then some (JSVal.num 5) else none)
          ((endStep (fun s => if s = "5" then some (JSVal.num 5) else none) none 200
            ⟨"5", none⟩ .noArgs).resBody) = some (.bool bo) ∧ b = .bool bo))) :=
  outcome_statusCode_and_body_shape
    (fun s => if s = "5" then some (JSVal.num 5) else none) none 200 "5" .noArgs
    (by simp)

/-- Helper: `upChar` maps a lowercase ASCII letter 32 code points down. -/
theorem upChar_toNat (c : Char) (h : 97 ≤ c.toNat ∧ c.toNat ≤ 122) :
    (upChar c).toNat = c.toNat - 32 := by
  unfold upChar
  rw [dif_pos h]
  exact UInt32.toNat_ofNat_of_lt (show c.toNat - 32 < 4294967296 by omega)

/-- Helper: no character in the image of `upChar` is a lowercase ASCII
letter. -/
theorem upChar_not_lower (c : Char) :
    ¬ (97 ≤ (upChar c).toNat ∧ (upChar c).toNat ≤ 122) := by
  by_cases h : 97 ≤ c.toNat ∧ c.toNat ≤ 122
  · have := upChar_toNat c h
    omega
  · unfold upChar
    rw [dif_neg h]
    exact h

/-- C2 counterexample: an event whose `body` is `null` (a wrong-typed body:
the field is declared as a string) normalizes to the body `"null"` — the
serialization of `null` — and not to the empty string the claim
promises. -/
theorem getExpressParams_null_body_counterexample :
    (getExpressParams [("body", JSVal.null)]).body = JSVal.str "null" ∧
    JSVal.str "null" ≠ JSVal.str "" := by
  refine ⟨rfl, ?_⟩
  simp

/-- C2 (amended): normalization never fails, and every absent or wrong-typed
field falls back to its default — path `"/"`, method `"GET"`, empty headers
mapping, empty query mapping, `isBase64Encoded` false when absent, the
method always upper-cased (no lowercase ASCII letter survives) — except for
the body slot: a wrong-typed body normalizes to `""` only when it is
neither `null` nor an object; a `null` body becomes the string `"null"`
(its JSON serialization) and a non-null object (or array, or Buffer) body
is passed through unchanged. -/
theorem getExpressParams_defaults_amended (ev : List (String × JSVal)) :
    ((evGet ev "path").isString = false → (getExpressParams ev).path = "/") ∧
    ((evGet ev "httpMethod").isString = false →
      (getExpressParams ev).httpMethod = "GET") ∧
    (∀ c ∈ (getExpressParams ev).httpMethod.data, isLowerAscii c = false) ∧
    (isMergeTarget (evGet ev "headers") = false →
      (getExpressParams ev).headers = .obj []) ∧
    (isMergeTarget (evGet ev "queryStringParameters") = false →
      (getExpressParams ev).queryStringParameters = .obj []) ∧
    ((jsTypeof (evGet ev "body") ≠ "string" ∧
      jsTypeof (evGet ev "body") ≠ "object") →
      (getExpressParams ev).body = .str "") ∧
    (evGet ev "body" = .null → (getExpressParams ev).body = .str "null") ∧
    (isMergeTarget (evGet ev "body") = true →
      (getExpressParams ev).body = evGet ev "body") ∧
    (evGet ev "isBase64Encoded" = .undefined →
      (getExpressParams ev).isBase64Encoded = false) := by
  refine ⟨?_, ?_, ?_, ?_, ?_, ?_, ?_, ?_, ?_⟩
  · intro h
    unfold getExpressParams
    cases hv : evGet ev "path" <;> simp_all [JSVal.isString]
  · intro h
    unfold getExpressParams
    cases hv : evGet ev "httpMethod" <;>
      simp_all [JSVal.isString, jsToUpper, upChar]
  · intro c hc
    unfold getExpressParams at hc
    have : ∃ s, (getExpressParams ev).httpMethod = jsToUpper s := by
      unfold getExpressParams
      cases hv : evGet ev "httpMethod"
      case str s => exact ⟨if s = "" then "GET" else s, rfl⟩
      all_goals exact ⟨"GET", rfl⟩
    obtain ⟨s, hs⟩ := this
    unfold getExpressParams at hs
    rw [hs] at hc
    simp only [jsToUpper] at hc
    obtain ⟨c', _, hc'⟩ := List.mem_map.mp hc
    subst hc'
    simp only [isLowerAscii, decide_eq_false_iff_not]
    exact upChar_not_lower c'
  · intro h
    unfold getExpressParams
    cases hv : evGet ev "headers" <;>
      simp_all [isMergeTarget, jsTruthy, isObjectTypeof]
  · intro h
    unfold getExpressParams
    cases hv : evGet ev "queryStringParameters" <;>
      simp_all [isMergeTarget, jsTruthy, isObjectTypeof]
  · intro h
    unfold getExpressParams
    cases hv : evGet ev "body" <;> simp_all [jsTypeof, jsTruthy]
  · intro h
    unfold getExpressParams
    simp_all [jsTypeof, jsTruthy, stringify]
  · intro h
    unfold getExpressParams
    cases hv : evGet ev "body" <;>
      simp_all [isMergeTarget, jsTruthy, jsTypeof]
  · intro h
    unfold getExpressParams
    simp_all [jsTruthy]

/-- C2 amended witness: the empty event (every field absent) normalizes to
path `"/"`, method `"GET"`, empty headers, empty query, empty body and
`isBase64Encoded = false`. -/
theorem getExpressParams_defaults_amended_witness :
    (getExpressParams []).path = "/" ∧
    (getExpressParams []).httpMethod = "GET" ∧
    (getExpressParams []).headers = .obj [] ∧
    (getExpressParams []).queryStringParameters = .obj [] ∧
    (getExpressParams []).body = .str "" ∧
    (getExpressParams []).isBase64Encoded = false := by
  have h := getExpressParams_defaults_amended []
  exact ⟨h.1 rfl, h.2.1 rfl, h.2.2.2.1 rfl, h.2.2.2.2.1 rfl,
    h.2.2.2.2.2.1 (by constructor <;> simp [evGet, jsTypeof]),
    h.2.2.2.2.2.2.2.2 rfl⟩

/-- C4 (code bug): the middleware function returned by `session()` invokes
the supplied `next` continuation when the request already carries a session
and when the store is not ready, but in the remaining case — store ready
and no session, the case in which a fresh session would have to be
established — it falls off the end of the function without invoking `next`,
leaving the request unhandled. -/
theorem sessionMiddleware_drops_request_when_store_ready_and_no_session :
    sessionMiddleware false true true = false ∧
    sessionMiddleware true true true = true ∧
    sessionMiddleware false false true = true :=
  ⟨rfl, rfl, rfl⟩

/-- C6: reading a session id whose cookie's `expires` instant is at or
before the current time deletes the session from the store and returns
absent; reading before expiry returns the stored session unchanged, with
the store untouched. -/
theorem getSession_lazy_expiry (m : MemoryStore) (id : String) (now : Int)
    (s : Session) (c : Cookie) (e : Int)
    (hs : sLookup m.sessions id = some s)
    (hc : s.cookie = some c) (he : c._expires = some e) :
    (e ≤ now → getSession m id now = (none, ⟨sErase m.sessions id⟩)) ∧
    (now < e → getSession m id now = (some s, m)) := by
  constructor
  · intro h
    simp [getSession, hs, hc, he, h]
  · intro h
    simp [getSession, hs, hc, he, show ¬ e ≤ now by omega]

/-- C6 witness: a session stored with expiry 100 is deleted and absent when
read at time 100, and returned unchanged with the store untouched when read
at time 99. -/
theorem getSession_lazy_expiry_witness :
    (getSession ⟨[("sid", ⟨"sid", some { _expires := some 100 }⟩)]⟩ "sid" 100 =
      (none, ⟨[]⟩)) ∧
    (getSession ⟨[("sid", ⟨"sid", some { _expires := some 100 }⟩)]⟩ "sid" 99 =
      (some ⟨"sid", some { _expires := some 100 }⟩,
        ⟨[("sid", ⟨"sid", some { _expires := some 100 }⟩)]⟩)) := by
  have h := getSession_lazy_expiry
    ⟨[("sid", ⟨"sid", some { _expires := some 100 }⟩)]⟩ "sid"
  exact ⟨(h 100 _ _ 100 rfl rfl rfl).1 (by omega),
    (h 99 _ _ 100 rfl rfl rfl).2 (by omega)⟩

/-- C10: a stored session with no cookie, or whose cookie carries no
`expires` instant, is returned unchanged by a read at any time and is never
deleted: only sessions whose cookie carries an expiry date are subject to
lazy expiry. -/
theorem getSession_no_expiry_never_deleted (m : MemoryStore) (id : String)
    (now : Int) (s : Session)
    (hs : sLookup m.sessions id = some s)
    (h : s.cookie = none ∨ ∃ c, s.cookie = some c ∧ c._expires = none) :
    getSession m id now = (some s, m) := by
  rcases h with h | ⟨c, hc, he⟩
  · simp [getSession, hs, h]
  · simp [getSession, hs, hc, he]

/-- C10 witness: a cookie-less session and a session whose cookie has no
expiry are both returned unchanged at an arbitrarily late read time. -/
theorem getSession_no_expiry_never_deleted_witness :
    (getSession ⟨[("a", ⟨"a", none⟩)]⟩ "a" 1000000 =
      (some ⟨"a", none⟩, ⟨[("a", ⟨"a", none⟩)]⟩)) ∧
    (getSession ⟨[("b", ⟨"b", some { _maxAge := some 5 }⟩)]⟩ "b" 1000000 =
      (some ⟨"b", some { _maxAge := some 5 }⟩,
        ⟨[("b", ⟨"b", some { _maxAge := some 5 }⟩)]⟩)) :=
  ⟨getSession_no_expiry_never_deleted _ "a" 1000000 _ rfl (Or.inl rfl),
   getSession_no_expiry_never_deleted _ "b" 1000000 _ rfl
     (Or.inr ⟨_, rfl, rfl⟩)⟩

/-- C8: `touch()` on a session whose cookie has an originally configured
(non-zero) maxAge `m` renews the expiry instant to `now + m`, leaves the
retained original maxAge at `m`, and makes the live maxAge read `m` again —
the reset uses only the originally configured duration (touch accepts no
fresh one). -/
theorem session_touch_resets_maxAge (s : Session) (c : Cookie) (m : Int)
    (now : Int) (hc : s.cookie = some c) (hm : c._maxAge = some m)
    (hnz : m ≠ 0) :
    ∃ c', (sessionTouch s now).cookie = some c' ∧
      c'._expires = some (now + m) ∧
      c'._maxAge = some m ∧
      cookieMaxAge c' now = some m := by
  refine ⟨cookieSetMaxAge c (cookieGetOriMaxAge c) now, ?_, ?_⟩
  · simp [sessionTouch, hc]
  · have key : cookieSetMaxAge c (cookieGetOriMaxAge c) now =
        { c with _expires := some (now + m), _maxAge := some (now + m - now) } := by
      unfold cookieSetMaxAge cookieGetOriMaxAge cookieSetExpires cookieMaxAge
      rw [hm]
      simp [hnz, show now + m - now ≠ 0 by omega]
    rw [key, show now + m - now = m by omega]
    exact ⟨rfl, rfl, by simp [cookieMaxAge]⟩

/-- C8 witness: touching at time 1000 a session whose cookie was configured
with maxAge 50 (and has meanwhile counted down) renews the expiry to 1050
and the live maxAge back to 50, keeping the original maxAge 50. -/
theorem session_touch_resets_maxAge_witness :
    ∃ c', (sessionTouch ⟨"sid", some { _maxAge := some 50, _expires := some 1010 }⟩
        1000).cookie = some c' ∧
      c'._expires = some 1050 ∧
      c'._maxAge = some 50 ∧
      cookieMaxAge c' 1000 = some 50 := by
  have h := session_touch_resets_maxAge
    ⟨"sid", some { _maxAge := some 50, _expires := some 1010 }⟩
    { _maxAge := some 50, _expires := some 1010 } 50 1000 rfl rfl (by omega)
  simpa using h

/-- C9: `isSecure` is never secure under an explicitly-false trust proxy;
with the trust proxy unset it reports the request's own transport security;
with a truthy trust proxy it reports whether the first comma-separated
entry of the forwarded-protocol header, lower-cased and trimmed, equals
`"https"` (false when the header record is absent). -/
theorem isSecure_cases :
    (∀ req, isSecure req (some false) = false) ∧
    (∀ req, (isSecure req none = true ↔ req.secure = some true)) ∧
    (∀ req h v, req.header = some h →
      recGet h "x-forworded-proto" = some v →
      (isSecure req (some true) = true ↔
        jsTrim (jsToLower (firstCommaEntry v)) = "https")) ∧
    (∀ req, req.header = none → isSecure req (some true) = false) := by
  refine ⟨fun req => rfl, fun req => by simp [isSecure], ?_, ?_⟩
  · intro req h v hh hv
    simp [isSecure, hh, hv]
  · intro req hh
    simp [isSecure, hh, firstCommaEntry, jsToLower]
    decide

/-- C9 witness: the three regimes at concrete requests — explicit distrust
beats a secure transport; an unset trust proxy reads the transport; a
trusted proxy reads ` HTTPS,http`, whose first entry trims and lower-cases
to `https`. -/
theorem isSecure_cases_witness :
    isSecure { secure := some true } (some false) = false ∧
    (isSecure { secure := some true } none = true ↔
      ({ secure := some true } : SecReq).secure = some true) ∧
    (isSecure { header := some [("x-forworded-proto", " HTTPS,http")] }
        (some true) = true ↔
      jsTrim (jsToLower (firstCommaEntry " HTTPS,http")) = "https") ∧
    isSecure {} (some true) = false :=
  ⟨isSecure_cases.1 _, isSecure_cases.2.1 _,
   isSecure_cases.2.2.1 _ _ _ rfl rfl, isSecure_cases.2.2.2 _ rfl⟩

/-- C5: the steps of `send` — (a) a string body defaults `Content-Type` to
the html type unless one is set, a Buffer body defaults it to the binary
type unless set, `null` is coerced to the empty string, and any other
object (or array) delegates to JSON serialization and returns immediately;
then, after the charset/ETag/Content-Length stages, (f) status 204 or 304
strips `Content-Type`/`Content-Length`/`Transfer-Encoding` and empties the
body, (g) status 205 zeroes `Content-Length`, strips `Transfer-Encoding`
and empties the body, and (h) a HEAD request terminates without writing a
body while any other request terminates writing the (possibly re-encoded)
chunk. -/
theorem send_steps_in_order :
    (∀ st s, hGet st.headers "Content-Type" = none →
      sendTypeDispatch st (.str s) =
        .inr (hSet st "Content-Type" "text/html", .str s)) ∧
    (∀ st s t, hGet st.headers "Content-Type" = some t →
      sendTypeDispatch st (.str s) = .inr (st, .str s)) ∧
    (∀ st b, hGet st.headers "Content-Type" = none →
      sendTypeDispatch st (.buf b) =
        .inr (hSet st "Content-Type" "application/octet-stream", .buf b)) ∧
    (∀ st b t, hGet st.headers "Content-Type" = some t →
      sendTypeDispatch st (.buf b) = .inr (st, .buf b)) ∧
    (∀ st, sendTypeDispatch st .null = .inr (st, .str "")) ∧
    (∀ e m f st fs, send e m f st (.obj fs) = .jsonDelegate (.obj fs)) ∧
    (∀ e m f st xs, send e m f st (.arr xs) = .jsonDelegate (.arr xs)) ∧
    (∀ st c, st.statusCode = 204 ∨ st.statusCode = 304 →
      send204304 (st, c) =
        (hRemove (hRemove (hRemove st "Content-Type") "Content-Length")
          "Transfer-Encoding", .str "")) ∧
    (∀ st c, st.statusCode = 205 →
      send205 (st, c) =
        (hRemove (hSet st "Content-Length" "0") "Transfer-Encoding",
          .str "")) ∧
    (∀ st c enc, sendFinish "HEAD" st c enc = .done st none) ∧
    (∀ m st c enc, m ≠ "HEAD" →
      sendFinish m st c enc = .done st (some (c, enc))) := by
  refine ⟨?_, ?_, ?_, ?_, ?_, ?_, ?_, ?_, ?_, ?_, ?_⟩
  · intro st s h
    simp [sendTypeDispatch, h, resTypeSet, mimeLookup]
  · intro st s t h
    simp [sendTypeDispatch, h]
  · intro st b h
    simp [sendTypeDispatch, h, resTypeSet, mimeLookup]
  · intro st b t h
    simp [sendTypeDispatch, h]
  · intro st
    rfl
  · intro e m f st fs
    rfl
  · intro e m f st xs
    rfl
  · intro st c h
    unfold send204304
    rw [if_pos h]
  · intro st c h
    unfold send205
    rw [if_pos h]
  · intro st c enc
    rfl
  · intro m st c enc h
    unfold sendFinish
    rw [if_neg h]

/-- C5 witness: the dispatch, stripping and termination steps at concrete
states — a string body with no Content-Type gains the html default, one
with a Content-Type keeps the state, a 304 state is stripped of its three
headers with an emptied body, a 205 state zeroes Content-Length, and a
HEAD request writes nothing while a GET writes the chunk. -/
theorem send_steps_in_order_witness :
    sendTypeDispatch ⟨200, []⟩ (.str "hi") =
      .inr (hSet ⟨200, []⟩ "Content-Type" "text/html", .str "hi") ∧
    sendTypeDispatch ⟨200, [("Content-Type", "text/plain")]⟩ (.str "hi") =
      .inr (⟨200, [("Content-Type", "text/plain")]⟩, .str "hi") ∧
    sendTypeDispatch ⟨200, []⟩ .null = .inr (⟨200, []⟩, .str "") ∧
    send none "GET" false ⟨200, []⟩ (.obj [("a", .num 1)]) =
      .jsonDelegate (.obj [("a", .num 1)]) ∧
    send204304 (⟨304, [("Content-Type", "text/html"), ("Content-Length", "2")]⟩,
        .str "hi") =
      (hRemove (hRemove (hRemove
          ⟨304, [("Content-Type", "text/html"), ("Content-Length", "2")]⟩
          "Content-Type") "Content-Length") "Transfer-Encoding", .str "") ∧
    send205 (⟨205, [("Content-Length", "2")]⟩, .str "hi") =
      (hRemove (hSet ⟨205, [("Content-Length", "2")]⟩ "Content-Length" "0")
        "Transfer-Encoding", .str "") ∧
    sendFinish "HEAD" ⟨200, []⟩ (.str "hi") (some "utf8") =
      .done ⟨200, []⟩ none ∧
    sendFinish "GET" ⟨200, []⟩ (.str "hi") (some "utf8") =
      .done ⟨200, []⟩ (some (.str "hi", some "utf8")) := by
  refine ⟨send_steps_in_order.1 _ _ rfl,
    send_steps_in_order.2.1 _ _ "text/plain" rfl,
    send_steps_in_order.2.2.2.2.1 _,
    send_steps_in_order.2.2.2.2.2.1 none "GET" false _ _,
    send_steps_in_order.2.2.2.2.2.2.2.1 _ _ (Or.inr rfl),
    send_steps_in_order.2.2.2.2.2.2.2.2.1 _ _ rfl,
    send_steps_in_order.2.2.2.2.2.2.2.2.2.1 _ _ _,
    send_steps_in_order.2.2.2.2.2.2.2.2.2.2 "GET" _ _ _ (by simp)⟩
